import Mathlib

/-!
# Verification of the `upload-ami` pipeline (`upload_ami.py`)

A shallow embedding of `src/upload-ami/src/upload_ami/upload_ami.py`:
the idempotent multi-stage AWS AMI provisioning pipeline
(S3 upload → snapshot import → image registration → region replication).

Remote AWS state (S3 objects, EC2 images, import tasks) is modelled as
explicit record state threaded through each stage; provider responses that
the code merely consumes (copy results, waiters) are modelled as explicit
environments.  Machine words in SHA-256 are `Nat` reduced mod `2^32`.
-/

namespace UploadAmi

/-! ## SHA-256 (for the snapshot-import ClientToken)

The source computes `hashlib.sha256(s3_key.encode()); update("x".encode());
hexdigest()`.  We embed SHA-256 itself, over byte lists (`Nat`s < 256),
with 32-bit words as `Nat` mod `2^32`. -/

def w32 : Nat := 4294967296

def add32 (a b : Nat) : Nat := (a + b) % w32

def rotr32 (n x : Nat) : Nat := (x >>> n) ||| ((x <<< (32 - n)) % w32)

def smallSigma0 (x : Nat) : Nat := (rotr32 7 x) ^^^ (rotr32 18 x) ^^^ (x >>> 3)

def smallSigma1 (x : Nat) : Nat := (rotr32 17 x) ^^^ (rotr32 19 x) ^^^ (x >>> 10)

def bigSigma0 (x : Nat) : Nat := (rotr32 2 x) ^^^ (rotr32 13 x) ^^^ (rotr32 22 x)

def bigSigma1 (x : Nat) : Nat := (rotr32 6 x) ^^^ (rotr32 11 x) ^^^ (rotr32 25 x)

def chB (x y z : Nat) : Nat := (x &&& y) ^^^ ((0xffffffff ^^^ x) &&& z)

def majB (x y z : Nat) : Nat := (x &&& y) ^^^ (x &&& z) ^^^ (y &&& z)

def sha256K : List Nat :=
  [1116352408, 1899447441, 3049323471, 3921009573, 961987163,
   1508970993, 2453635748, 2870763221, 3624381080, 310598401,
   607225278, 1426881987, 1925078388, 2162078206, 2614888103,
   3248222580, 3835390401, 4022224774, 264347078, 604807628,
   770255983, 1249150122, 1555081692, 1996064986, 2554220882,
   2821834349, 2952996808, 3210313671, 3336571891, 3584528711,
   113926993, 338241895, 666307205, 773529912, 1294757372,
   1396182291, 1695183700, 1986661051, 2177026350, 2456956037,
   2730485921, 2820302411, 3259730800, 3345764771, 3516065817,
   3600352804, 4094571909, 275423344, 430227734, 506948616,
   659060556, 883997877, 958139571, 1322822218, 1537002063,
   1747873779, 1955562222, 2024104815, 2227730452, 2361852424,
   2428436474, 2756734187, 3204031479, 3329325298]

def sha256H0 : List Nat :=
  [1779033703, 3144134277, 1013904242, 2773480762, 1359893119,
   2600822924, 528734635, 1541459225]

/-- Big-endian byte expansion: `n` bytes of `v`. -/
def bytesBE : Nat → Nat → List Nat
  | 0, _ => []
  | n + 1, v => bytesBE n (v / 256) ++ [v % 256]

/-- SHA-256 padding: append `0x80`, zeros, then the 64-bit big-endian bit length. -/
def sha256Pad (msg : List Nat) : List Nat :=
  let len := msg.length
  let zeros := (64 - ((len + 9) % 64)) % 64
  msg ++ [0x80] ++ List.replicate zeros 0 ++ bytesBE 8 (len * 8)

/-- Group bytes into big-endian 32-bit words. -/
def wordsOfBytes : List Nat → List Nat
  | a :: b :: c :: d :: rest => (((a * 256 + b) * 256 + c) * 256 + d) :: wordsOfBytes rest
  | _ => []

/-- Split a word list into blocks of 16 words. -/
def chunks16 : List Nat → List (List Nat)
  | [] => []
  | w :: ws => ((w :: ws).take 16) :: chunks16 ((w :: ws).drop 16)
termination_by l => l.length
decreasing_by simp [List.length_drop]; omega

/-- Extend a 16-word block to the 64-word message schedule. -/
def sha256Schedule (ws : List Nat) : Array Nat :=
  (List.range 48).foldl
    (fun w i =>
      let t := i + 16
      w.push (add32 (add32 (smallSigma1 (w.getD (t - 2) 0)) (w.getD (t - 7) 0))
                    (add32 (smallSigma0 (w.getD (t - 15) 0)) (w.getD (t - 16) 0))))
    ws.toArray

/-- One compression round on the eight working registers. -/
def sha256Round (k w : Nat) : List Nat → List Nat
  | [a, b, c, d, e, f, g, h] =>
    let t1 := add32 h (add32 (bigSigma1 e) (add32 (chB e f g) (add32 k w)))
    let t2 := add32 (bigSigma0 a) (majB a b c)
    [add32 t1 t2, a, b, c, add32 d t1, e, f, g]
  | s => s

/-- Compress one 16-word block into the running hash. -/
def sha256Compress (hs block : List Nat) : List Nat :=
  let w := sha256Schedule block
  let regs := (List.range 64).foldl
    (fun regs t => sha256Round (sha256K.getD t 0) (w.getD t 0) regs) hs
  (List.zip hs regs).map fun p => add32 p.1 p.2

/-- SHA-256 digest (32 bytes) of a byte list. -/
def sha256Bytes (msg : List Nat) : List Nat :=
  let hs := (chunks16 (wordsOfBytes (sha256Pad msg))).foldl sha256Compress sha256H0
  hs.foldr (fun h acc => bytesBE 4 h ++ acc) []

def hexDigit (n : Nat) : Char :=
  if n < 10 then Char.ofNat (48 + n) else Char.ofNat (87 + n)

def byteToHex (b : Nat) : String := String.mk [hexDigit (b / 16), hexDigit (b % 16)]

/-- Lowercase hex digest of a string's UTF-8 bytes, as `hashlib`'s `hexdigest`. -/
def sha256_hexdigest (s : String) : String :=
  String.join ((sha256Bytes ((s.toUTF8.toList).map (fun b => b.toNat))).map byteToHex)

end UploadAmi

namespace UploadAmi

/-! ## Data model

`ImageInfo` mirrors the `TypedDict` descriptor; `format` is `Option` because
`upload_ami` reads it with `image_info.get("format")`, which tolerates absence. -/

structure ImageInfo where
  file : String
  label : String
  system : String
  boot_mode : String
  format : Option String
deriving Repr, DecidableEq

/-- A Python exception as the upload stage's `try/except` discriminates it:
`botocore.exceptions.ClientError` (carrying a response code) versus any
other exception class (endpoint/network errors, etc.). -/
inductive PyExc where
  | clientError (code : String)
  | otherExc (name : String)
deriving Repr, DecidableEq

/-- Whether an exception is an instance of `botocore.exceptions.ClientError` —
exactly the class the `except` clause in `upload_to_s3_if_not_exists` catches. -/
def isClientError : PyExc → Bool
  | .clientError _ => true
  | .otherExc _ => false

/-- The "not found" response class from `head_object` (HTTP 404). -/
def isNotFound : PyExc → Bool
  | .clientError code => code == "404"
  | .otherExc _ => false

/-- Outcome of the `head_object` existence probe. -/
inductive HeadOutcome where
  | ok
  | raises (e : PyExc)
deriving Repr, DecidableEq

/-- What `upload_to_s3_if_not_exists` does, as a function of the probe outcome. -/
inductive UploadResult where
  | skipped
  | uploaded
  | propagated (e : PyExc)
deriving Repr, DecidableEq

/-- Control flow of `upload_to_s3_if_not_exists` (source lines 33–39): the
`try` body probes with `head_object`; `except botocore.exceptions.ClientError`
falls through to `upload_file` + the `object_exists` waiter; any other
exception is not caught and propagates. -/
def upload_to_s3_if_not_exists_ctrl (head : HeadOutcome) : UploadResult :=
  match head with
  | .ok => .skipped
  | .raises e => if isClientError e then .uploaded else .propagated e

/-- Number of `upload_file` transfers performed for a given outcome. -/
def transfersOf : UploadResult → Nat
  | .skipped => 0
  | .uploaded => 1
  | .propagated _ => 0

/-! ## S3 object store (happy-path state semantics) -/

structure S3Object where
  bucket : String
  key : String
  content : String
deriving Repr, DecidableEq

structure S3State where
  objects : List S3Object
deriving Repr, DecidableEq

/-- Content stored at `(bucket, key)`, if any (most recent upload wins). -/
def s3lookup (s : S3State) (bucket key : String) : Option String :=
  (s.objects.find? (fun o => o.bucket == bucket && o.key == key)).map (·.content)

/-- Probe `head_object` against the modelled store: succeeds iff the object exists,
else raises the 404 `ClientError`. -/
def head_object (s : S3State) (bucket key : String) : HeadOutcome :=
  if (s3lookup s bucket key).isSome then .ok else .raises (.clientError "404")

/-- Model of `s3.upload_file(file, bucket, key)`: store the local file's content
(read through the filesystem map `fs`) at the key. -/
def upload_file (s : S3State) (fs : String → String) (file bucket key : String) : S3State :=
  ⟨⟨bucket, key, fs file⟩ :: s.objects⟩

/-- Model of `upload_to_s3_if_not_exists` with the store semantics: returns the new
store and the number of transfers performed.  The `object_exists` waiter
after the upload only blocks and changes no state. -/
def upload_to_s3_if_not_exists (s : S3State) (fs : String → String)
    (bucket key file : String) : S3State × Nat :=
  match head_object s bucket key with
  | .ok => (s, 0)
  | .raises _ => (upload_file s fs file bucket key, 1)

/-! ## Snapshot import -/

/-- The `SnapshotTaskDetail` member of a describe response; `snapshotId` is
`none` when the `"SnapshotId"` field is missing. -/
structure SnapshotTaskDetail where
  snapshotId : Option String
deriving Repr, DecidableEq

/-- One record of `describe_import_snapshot_tasks`; `snapshotTaskDetail` is
`none` when the `"SnapshotTaskDetail"` field is missing. -/
structure ImportSnapshotTask where
  snapshotTaskDetail : Option SnapshotTaskDetail
deriving Repr, DecidableEq

/-- The post-wait extraction in `import_snapshot` (source lines 72–79):
`assert len(...) != 0`, take index 0, assert the detail and its snapshot id
are present, return the snapshot id.  A failed `assert` raises. -/
def extract_snapshot_id : List ImportSnapshotTask → Except String String
  | [] => .error "AssertionError: ImportSnapshotTasks is empty"
  | t :: _ =>
    match t.snapshotTaskDetail with
    | none => .error "AssertionError: SnapshotTaskDetail missing"
    | some d =>
      match d.snapshotId with
      | none => .error "AssertionError: SnapshotId missing"
      | some sid => .ok sid

/-- The ClientToken computation of `import_snapshot` (source lines 53–55):
`sha256(s3_key.encode())` updated with `"x".encode()`, hex digest.  The
bucket and format are in scope at the call site but unused. -/
def import_snapshot_client_token (s3_bucket s3_key image_format : String) : String :=
  sha256_hexdigest (s3_key ++ "x")

/-- A recorded `ec2.import_snapshot` submission (the `DiskContainer` plus
the client token). -/
structure ImportSubmission where
  token : String
  bucket : String
  key : String
  format : String
deriving Repr, DecidableEq

end UploadAmi

namespace UploadAmi

/-! ## EC2 images and image registration -/

/-- A registered machine image with the fields `register_image` sets. -/
structure Ec2Image where
  imageId : String
  name : String
  architecture : String
  bootMode : String
  snapshotId : String
  deviceName : String
  volumeType : String
  rootDeviceName : String
  virtualizationType : String
  enaSupport : Bool
  imdsSupport : String
  sriovNetSupport : String
deriving Repr, DecidableEq

/-- EC2-side remote state: registered images, images granted the public
launch permission (`LaunchPermission Add Group=all`), and a counter from
which fresh provider-assigned image ids are minted. -/
structure Ec2State where
  images : List Ec2Image
  publicGrants : List String
  nextImageNum : Nat
deriving Repr, DecidableEq

/-- Model of `describe_images` with owner self and an exact name filter:
the images whose name matches exactly. -/
def describe_images_by_name (s : Ec2State) (image_name : String) : List Ec2Image :=
  s.images.filter (fun i => i.name == image_name)

/-- The image record `register_image` creates: the name, the mapped
architecture, the descriptor's boot mode, the snapshot, and the fixed
policy constants (source lines 119–137).  The provider-assigned id is
minted from the state's counter. -/
def mkRegisteredImage (s : Ec2State) (image_name : String) (image_info : ImageInfo)
    (snapshot_id architecture : String) : Ec2Image :=
  { imageId := "ami-" ++ toString s.nextImageNum
    name := image_name
    architecture := architecture
    bootMode := image_info.boot_mode
    snapshotId := snapshot_id
    deviceName := "/dev/xvda"
    volumeType := "gp3"
    rootDeviceName := "/dev/xvda"
    virtualizationType := "hvm"
    enaSupport := true
    imdsSupport := "v2.0"
    sriovNetSupport := "simple" }

/-- The lookup-or-create half of `register_image_if_not_exists` (source
lines 94–138): look the image up by name, `assert len == 1` on a multiple
match, otherwise map the system triple to an architecture (an unknown
triple raises) and register the image.  Returns the state at exit together
with the image id or the error. -/
def register_image_lookup_or_create (s : Ec2State) (image_name : String)
    (image_info : ImageInfo) (snapshot_id : String) :
    Ec2State × Except String String :=
  match describe_images_by_name s image_name with
  | [] =>
    if image_info.system == "x86_64-linux" then
      let img := mkRegisteredImage s image_name image_info snapshot_id "x86_64"
      ({ s with images := img :: s.images, nextImageNum := s.nextImageNum + 1 },
        .ok img.imageId)
    else if image_info.system == "aarch64-linux" then
      let img := mkRegisteredImage s image_name image_info snapshot_id "arm64"
      ({ s with images := img :: s.images, nextImageNum := s.nextImageNum + 1 },
        .ok img.imageId)
    else
      (s, .error ("Unknown system: " ++ image_info.system))
  | [i] => (s, .ok i.imageId)
  | _ => (s, .error "AssertionError: len(Images) == 1")

/-- The epilogue of `register_image_if_not_exists` (source lines 140–148):
the `image_available` waiter blocks without changing state, then the
unconditional `if public:` launch-permission grant is applied to whichever
image id the lookup-or-create half produced. -/
def apply_public_grant (p : Ec2State × Except String String) (public : Bool) :
    Ec2State × Except String String :=
  match p with
  | (s1, .error e) => (s1, .error e)
  | (s1, .ok image_id) =>
    if public then
      ({ s1 with publicGrants := image_id :: s1.publicGrants }, .ok image_id)
    else
      (s1, .ok image_id)

/-- Model of `register_image_if_not_exists` (source lines 82–148): the
lookup-or-create half followed by the wait-and-grant epilogue. -/
def register_image_if_not_exists (s : Ec2State) (image_name : String)
    (image_info : ImageInfo) (snapshot_id : String) (public : Bool) :
    Ec2State × Except String String :=
  apply_public_grant
    (register_image_lookup_or_create s image_name image_info snapshot_id) public

/-! ## Region replication -/

/-- Provider behaviour of one target region for the copy: the outcome of
`ec2r.copy_image` (an image id, or a raised exception rendered as a
message), of the `image_available` waiter on the copy, and of the public
`modify_image_attribute` call. -/
structure RegionBehavior where
  copyImageId : Except String String
  waitAvailable : Except String Unit
  modifyPublic : Except String Unit
deriving Repr

/-- The inner `copy_image` worker (source lines 167–201): copy, wait for
the copy to become available, optionally grant public launch permission,
and return the `(target_region_name, copied image id)` pair.  Any raised
exception propagates. -/
def copy_image (env : String → RegionBehavior) (image_id image_name source_region : String)
    (public : Bool) (target : String) : Except String (String × String) :=
  match (env target).copyImageId with
  | .error e => .error e
  | .ok cid =>
    match (env target).waitAvailable with
    | .error e => .error e
    | .ok _ =>
      if public then
        match (env target).modifyPublic with
        | .error e => .error e
        | .ok _ => .ok (target, cid)
      else .ok (target, cid)

/-- Model of `dict(executor.map(_copy_image, target_regions))`: results are consumed
in submission order and the first raised exception propagates; further
results are discarded. -/
def copy_images (env : String → RegionBehavior) (image_id image_name source_region : String)
    (public : Bool) : List String → Except String (List (String × String))
  | [] => .ok []
  | t :: ts =>
    match copy_image env image_id image_name source_region public t with
    | .error e => .error e
    | .ok p =>
      match copy_images env image_id image_name source_region public ts with
      | .error e => .error e
      | .ok ps => .ok (p :: ps)

/-! Python `dict` as an insertion-ordered association list with
overwrite-on-duplicate-key semantics. -/

def dinsert (m : List (String × String)) (k v : String) : List (String × String) :=
  if m.any (fun p => p.1 == k) then
    m.map (fun p => if p.1 == k then (k, v) else p)
  else m ++ [(k, v)]

def dofList (ps : List (String × String)) : List (String × String) :=
  ps.foldl (fun m p => dinsert m p.1 p.2) []

def dlookup (m : List (String × String)) (k : String) : Option String :=
  (m.find? (fun p => p.1 == k)).map (·.2)

/-- Model of `copy_image_to_regions` (source lines 151–214): fan the copy out over
the target regions, build the dict of `(region, image id)` pairs, then set
the source region's entry to the original image id. -/
def copy_image_to_regions (env : String → RegionBehavior)
    (image_id image_name source_region : String) (target_regions : List String)
    (public : Bool) : Except String (List (String × String)) :=
  match copy_images env image_id image_name source_region public target_regions with
  | .error e => .error e
  | .ok pairs => .ok (dinsert (dofList pairs) source_region image_id)

end UploadAmi

namespace UploadAmi

/-! ## Orchestrator state and environment -/

/-- The whole remote AWS state the pipeline touches: the S3 store, the EC2
image state of the source region, the provider's import-task table keyed by
ClientToken (resubmission with a known token reuses the task — the
provider-guaranteed semantics the code relies on), a counter minting fresh
snapshot ids, and the trace of `import_snapshot` submissions. -/
structure AwsState where
  s3 : S3State
  ec2 : Ec2State
  importTasks : List (String × String)
  nextSnapNum : Nat
  importSubmissions : List ImportSubmission
deriving Repr, DecidableEq

/-- Ambient environment: local filesystem contents, `describe_regions`
result, the default region (`ec2.meta.region_name`), and each target
region's copy behaviour. -/
structure AwsEnv where
  fs : String → String
  regions : List String
  sourceRegion : String
  copyBehavior : String → RegionBehavior

/-- Model of `import_snapshot` (source lines 42–79): compute the ClientToken from the
key, submit (the provider deduplicates by token), wait (state-neutral),
describe the task and extract the snapshot id via `extract_snapshot_id`.
The happy-path describe response is the submitted task's single record. -/
def import_snapshot (st : AwsState) (s3_bucket s3_key image_format : String) :
    AwsState × Except String String :=
  let client_token := import_snapshot_client_token s3_bucket s3_key image_format
  let sub : ImportSubmission :=
    { token := client_token, bucket := s3_bucket, key := s3_key, format := image_format }
  let submitted : AwsState × String :=
    match st.importTasks.find? (fun p => p.1 == client_token) with
    | some p => ({ st with importSubmissions := sub :: st.importSubmissions }, p.2)
    | none =>
      let sid := "snap-" ++ toString st.nextSnapNum
      ({ st with
          importTasks := (client_token, sid) :: st.importTasks
          nextSnapNum := st.nextSnapNum + 1
          importSubmissions := sub :: st.importSubmissions }, sid)
  let resp : List ImportSnapshotTask := [⟨some ⟨some submitted.2⟩⟩]
  (submitted.1, extract_snapshot_id resp)

/-- The logical image name `upload_ami` derives (source line 237):
`prefix + label + "-" + system + ("." + run_id if run_id else "")`. -/
def upload_ami_image_name (image_info : ImageInfo) (npfx run_id : String) : String :=
  npfx ++ image_info.label ++ "-" ++ image_info.system ++
    (if run_id == "" then "" else "." ++ run_id)

/-- The effective disk-image format (source line 241):
`image_info.get("format") or "VHD"` — the default applies when the field is
absent (`None`) or falsy (the empty string). -/
def effective_format (format? : Option String) : String :=
  match format? with
  | none => "VHD"
  | some f => if f == "" then "VHD" else f

/-- Model of `upload_ami` (source lines 217–263): derive the image name and S3 key,
upload if absent, import the snapshot, register the image, and build the
region → image-id map, fanning out to the other regions when
`copy_to_regions` is set. -/
def upload_ami (env : AwsEnv) (st : AwsState) (image_info : ImageInfo)
    (s3_bucket : String) (copy_to_regions : Bool) (npfx run_id : String)
    (public : Bool) : AwsState × Except String (List (String × String)) :=
  let image_name := upload_ami_image_name image_info npfx run_id
  let s3_key := image_name
  let upl := upload_to_s3_if_not_exists st.s3 env.fs s3_bucket s3_key image_info.file
  let st1 : AwsState := { st with s3 := upl.1 }
  let image_format := effective_format image_info.format
  match import_snapshot st1 s3_bucket s3_key image_format with
  | (st2, .error e) => (st2, .error e)
  | (st2, .ok snapshot_id) =>
    match register_image_if_not_exists st2.ec2 image_name image_info snapshot_id public with
    | (ec2a, .error e) => ({ st2 with ec2 := ec2a }, .error e)
    | (ec2a, .ok image_id) =>
      let st3 : AwsState := { st2 with ec2 := ec2a }
      let target_regions := env.regions.filter (fun r => r != env.sourceRegion)
      let base : List (String × String) := dinsert [] env.sourceRegion image_id
      if copy_to_regions then
        match copy_image_to_regions env.copyBehavior image_id image_name
            env.sourceRegion target_regions public with
        | .error e => (st3, .error e)
        | .ok m => (st3, .ok (m.foldl (fun acc p => dinsert acc p.1 p.2) base))
      else (st3, .ok base)

end UploadAmi

namespace UploadAmi

/-! ## Claim theorems -/

/-- C1 (counterexample): the claim says every probe error other than "not
found" propagates; but on a `ClientError` that is *not* a 404 — here an
auth-style "403" — `upload_to_s3_if_not_exists` does not propagate: the
`except botocore.exceptions.ClientError` clause swallows it and performs
the transfer. -/
theorem C1_counterexample :
    isNotFound (PyExc.clientError "403") = false ∧
    upload_to_s3_if_not_exists_ctrl (.raises (.clientError "403")) = .uploaded ∧
    transfersOf (upload_to_s3_if_not_exists_ctrl (.raises (.clientError "403"))) = 1 := by
  refine ⟨by decide, rfl, rfl⟩

/-- C1 (amended): the class the probe's `try/except` discriminates is
`ClientError`, not "not found": every `ClientError` (404, auth, throttling
alike) triggers an upload, and every exception outside that class
propagates unchanged with no transfer performed. -/
theorem C1_amended (e : PyExc) :
    (isClientError e = true →
      upload_to_s3_if_not_exists_ctrl (.raises e) = .uploaded) ∧
    (isClientError e = false →
      upload_to_s3_if_not_exists_ctrl (.raises e) = .propagated e ∧
      transfersOf (upload_to_s3_if_not_exists_ctrl (.raises e)) = 0) := by
  cases e <;> simp [upload_to_s3_if_not_exists_ctrl, isClientError, transfersOf]

/-- C1 amended, witnessed on a network-style exception: it propagates. -/
theorem C1_amended_witness :
    upload_to_s3_if_not_exists_ctrl (.raises (.otherExc "EndpointConnectionError")) =
      .propagated (.otherExc "EndpointConnectionError") ∧
    transfersOf (upload_to_s3_if_not_exists_ctrl
      (.raises (.otherExc "EndpointConnectionError"))) = 0 :=
  (C1_amended (.otherExc "EndpointConnectionError")).2 rfl

/-- C2 (counterexample): the claim says a describe response with more than
one import-task record is fatal; but the code only asserts the list is
nonempty (`assert len(...) != 0`) and then indexes record 0, so a
two-record response succeeds and returns the first record's snapshot id. -/
theorem C2_counterexample :
    ([⟨some ⟨some "snap-A"⟩⟩, ⟨some ⟨some "snap-B"⟩⟩] : List ImportSnapshotTask).length = 2 ∧
    extract_snapshot_id [⟨some ⟨some "snap-A"⟩⟩, ⟨some ⟨some "snap-B"⟩⟩] = .ok "snap-A" :=
  ⟨rfl, rfl⟩

/-- C2 (amended): after the wait, a response with zero records aborts via
the assertion, and otherwise the *first* record is used: its
`SnapshotTaskDetail` and `SnapshotId` must be present (each missing field
aborts), and its snapshot id is returned; responses with more than one
record are not rejected. -/
theorem C2_amended (resp : List ImportSnapshotTask) :
    (resp = [] → ∃ e, extract_snapshot_id resp = .error e) ∧
    (∀ t rest, resp = t :: rest →
      (t.snapshotTaskDetail = none → ∃ e, extract_snapshot_id resp = .error e) ∧
      (∀ d, t.snapshotTaskDetail = some d → d.snapshotId = none →
        ∃ e, extract_snapshot_id resp = .error e) ∧
      (∀ d sid, t.snapshotTaskDetail = some d → d.snapshotId = some sid →
        extract_snapshot_id resp = .ok sid)) := by
  constructor
  · rintro rfl
    exact ⟨_, rfl⟩
  · rintro t rest rfl
    refine ⟨?_, ?_, ?_⟩
    · intro h
      exact ⟨"AssertionError: SnapshotTaskDetail missing", by simp [extract_snapshot_id, h]⟩
    · rintro d hd hs
      exact ⟨"AssertionError: SnapshotId missing", by simp [extract_snapshot_id, hd, hs]⟩
    · rintro d sid hd hs
      simp [extract_snapshot_id, hd, hs]

/-- C2 amended, witnessed on a well-formed single-record response. -/
theorem C2_amended_witness :
    extract_snapshot_id [⟨some ⟨some "snap-0"⟩⟩] = .ok "snap-0" :=
  ((C2_amended [⟨some ⟨some "snap-0"⟩⟩]).2 ⟨some ⟨some "snap-0"⟩⟩ [] rfl).2.2
    ⟨some "snap-0"⟩ "snap-0" rfl rfl

/-- C6: the upload stage is idempotent — when the probe reports the object
present the call is a no-op with zero transfers, and starting from an
absent object two sequential calls perform exactly one transfer between
them, the second call changes nothing, and the stored content after both
calls is the uploaded file's content. -/
theorem C6_idempotent_upload (s : S3State) (fs : String → String)
    (bucket key file : String) :
    (head_object s bucket key = .ok →
      upload_to_s3_if_not_exists s fs bucket key file = (s, 0)) ∧
    (s3lookup s bucket key = none →
      (upload_to_s3_if_not_exists s fs bucket key file).2 +
        (upload_to_s3_if_not_exists (upload_to_s3_if_not_exists s fs bucket key file).1
          fs bucket key file).2 = 1 ∧
      (upload_to_s3_if_not_exists (upload_to_s3_if_not_exists s fs bucket key file).1
          fs bucket key file).1 =
        (upload_to_s3_if_not_exists s fs bucket key file).1 ∧
      s3lookup (upload_to_s3_if_not_exists (upload_to_s3_if_not_exists s fs bucket key file).1
          fs bucket key file).1 bucket key = some (fs file)) := by
  constructor
  · intro h
    unfold upload_to_s3_if_not_exists
    rw [h]
  · intro habs
    have h1 : head_object s bucket key = .raises (.clientError "404") := by
      simp [head_object, habs]
    have hstep1 : upload_to_s3_if_not_exists s fs bucket key file =
        (upload_file s fs file bucket key, 1) := by
      unfold upload_to_s3_if_not_exists
      rw [h1]
    have hlk : s3lookup (upload_file s fs file bucket key) bucket key = some (fs file) := by
      simp [s3lookup, upload_file, List.find?]
    have h2 : head_object (upload_file s fs file bucket key) bucket key = .ok := by
      simp [head_object, hlk]
    have hstep2 : upload_to_s3_if_not_exists (upload_file s fs file bucket key)
        fs bucket key file = (upload_file s fs file bucket key, 0) := by
      unfold upload_to_s3_if_not_exists
      rw [h2]
    simp [hstep1, hstep2, hlk]

/-- C6, witnessed: two calls against an initially empty store, concretely. -/
theorem C6_idempotent_upload_witness :
    (upload_to_s3_if_not_exists ⟨[]⟩ (fun _ => "IMG") "b" "k" "disk.img").2 +
      (upload_to_s3_if_not_exists
        (upload_to_s3_if_not_exists ⟨[]⟩ (fun _ => "IMG") "b" "k" "disk.img").1
        (fun _ => "IMG") "b" "k" "disk.img").2 = 1 ∧
    s3lookup (upload_to_s3_if_not_exists
        (upload_to_s3_if_not_exists ⟨[]⟩ (fun _ => "IMG") "b" "k" "disk.img").1
        (fun _ => "IMG") "b" "k" "disk.img").1 "b" "k" = some "IMG" := by
  have h := (C6_idempotent_upload ⟨[]⟩ (fun _ => "IMG") "b" "k" "disk.img").2 rfl
  exact ⟨h.1, h.2.2⟩

end UploadAmi

namespace UploadAmi

/-- C5: on the create path (no image of that name exists yet) the
architecture mapping is closed — `x86_64-linux` registers an `x86_64`
image, `aarch64-linux` registers an `arm64` image, and any other system
raises `Unknown system: ...` with the EC2 state unchanged, so no image is
registered. -/
theorem C5_closed_architecture_mapping (s : Ec2State) (image_name : String)
    (info : ImageInfo) (snapshot_id : String) (public : Bool)
    (hmiss : describe_images_by_name s image_name = []) :
    (info.system = "x86_64-linux" →
      (register_image_if_not_exists s image_name info snapshot_id public).2 =
        .ok ("ami-" ++ toString s.nextImageNum) ∧
      (register_image_if_not_exists s image_name info snapshot_id public).1.images =
        mkRegisteredImage s image_name info snapshot_id "x86_64" :: s.images) ∧
    (info.system = "aarch64-linux" →
      (register_image_if_not_exists s image_name info snapshot_id public).2 =
        .ok ("ami-" ++ toString s.nextImageNum) ∧
      (register_image_if_not_exists s image_name info snapshot_id public).1.images =
        mkRegisteredImage s image_name info snapshot_id "arm64" :: s.images) ∧
    (info.system ≠ "x86_64-linux" → info.system ≠ "aarch64-linux" →
      register_image_if_not_exists s image_name info snapshot_id public =
        (s, .error ("Unknown system: " ++ info.system))) := by
  refine ⟨?_, ?_, ?_⟩
  · intro hx
    cases public <;>
      simp [register_image_if_not_exists, register_image_lookup_or_create,
        apply_public_grant, mkRegisteredImage, hmiss, hx]
  · intro hx
    have hne : (info.system == "x86_64-linux") = false := by
      simp [hx]
    cases public <;>
      simp [register_image_if_not_exists, register_image_lookup_or_create,
        apply_public_grant, mkRegisteredImage, hmiss, hx, hne]
  · intro h1 h2
    have hne1 : (info.system == "x86_64-linux") = false := by
      simpa using h1
    have hne2 : (info.system == "aarch64-linux") = false := by
      simpa using h2
    simp [register_image_if_not_exists, register_image_lookup_or_create,
      apply_public_grant, hmiss, hne1, hne2]

/-- C5, witnessed: an unknown triple on an empty account raises the fatal
configuration error and registers nothing. -/
theorem C5_closed_architecture_mapping_witness :
    register_image_if_not_exists ⟨[], [], 0⟩ "nixos-i686-linux"
        ⟨"disk.img", "nixos", "i686-linux", "uefi", none⟩ "snap-0" false =
      (⟨[], [], 0⟩, .error "Unknown system: i686-linux") :=
  (C5_closed_architecture_mapping ⟨[], [], 0⟩ "nixos-i686-linux"
      ⟨"disk.img", "nixos", "i686-linux", "uefi", none⟩ "snap-0" false rfl).2.2
    (by decide) (by decide)

/-- The lookup-or-create half never touches the launch-permission grants. -/
lemma lookup_or_create_publicGrants (s : Ec2State) (image_name : String)
    (info : ImageInfo) (snapshot_id : String) :
    (register_image_lookup_or_create s image_name info snapshot_id).1.publicGrants =
      s.publicGrants := by
  unfold register_image_lookup_or_create
  split
  · split
    · rfl
    · split
      · rfl
      · rfl
  · rfl
  · rfl

/-- C9: with `public` set, any successful `register_image_if_not_exists`
call — whether it found the image by name or registered it in this call —
issues the launch-permission grant for the returned image id: the returned
state's grant list is the input's with that id prepended. -/
theorem C9_public_grant_always (s : Ec2State) (image_name : String)
    (info : ImageInfo) (snapshot_id : String) (s' : Ec2State) (image_id : String)
    (h : register_image_if_not_exists s image_name info snapshot_id true =
      (s', .ok image_id)) :
    s'.publicGrants = image_id :: s.publicGrants := by
  unfold register_image_if_not_exists apply_public_grant at h
  rcases hp : register_image_lookup_or_create s image_name info snapshot_id with ⟨s1, r⟩
  rw [hp] at h
  cases r with
  | error e => simp at h
  | ok id =>
    simp only [if_true] at h
    obtain ⟨h1, h2⟩ := Prod.mk.injEq .. ▸ h
    cases h2
    have := lookup_or_create_publicGrants s image_name info snapshot_id
    rw [hp] at this
    simp only at this
    rw [← h1]
    simp [this]

end UploadAmi

namespace UploadAmi

/-- A pre-existing registered image, for exercising the lookup-hit path. -/
def imgPre : Ec2Image :=
  { imageId := "ami-7", name := "nixos-x86_64-linux.42", architecture := "x86_64",
    bootMode := "uefi", snapshotId := "snap-9", deviceName := "/dev/xvda",
    volumeType := "gp3", rootDeviceName := "/dev/xvda", virtualizationType := "hvm",
    enaSupport := true, imdsSupport := "v2.0", sriovNetSupport := "simple" }

/-- The spec's end-to-end scenario descriptor. -/
def imageInfoNixos : ImageInfo :=
  { file := "disk.img", label := "nixos", system := "x86_64-linux",
    boot_mode := "uefi", format := some "VHD" }

/-- C9, witnessed on the lookup-hit path: the image named
`nixos-x86_64-linux.42` already exists as `ami-7`, no image is created,
and the call still grants the public launch permission to `ami-7`. -/
theorem C9_public_grant_always_witness :
    (⟨[imgPre], ["ami-7"], 3⟩ : Ec2State).publicGrants =
      "ami-7" :: (⟨[imgPre], [], 3⟩ : Ec2State).publicGrants :=
  C9_public_grant_always ⟨[imgPre], [], 3⟩ "nixos-x86_64-linux.42" imageInfoNixos
    "snap-9" ⟨[imgPre], ["ami-7"], 3⟩ "ami-7" rfl

/-- Shape of `import_snapshot` in the happy-path model: it always succeeds,
touches neither S3 nor EC2 state, and records exactly one submission whose
token is the SHA-256-derived ClientToken of the key. -/
lemma import_snapshot_spec (st : AwsState) (b k f : String) :
    ∃ sid st', import_snapshot st b k f = (st', .ok sid) ∧
      st'.ec2 = st.ec2 ∧ st'.s3 = st.s3 ∧
      st'.importSubmissions =
        { token := import_snapshot_client_token b k f, bucket := b, key := k,
          format := f } :: st.importSubmissions := by
  simp only [import_snapshot]
  rcases hf : st.importTasks.find? (fun p => p.1 == import_snapshot_client_token b k f)
    with _ | p
  · rw [hf]
    exact ⟨_, _, rfl, rfl, rfl, rfl⟩
  · rw [hf]
    exact ⟨_, _, rfl, rfl, rfl, rfl⟩

/-- Every `upload_ami` run records exactly one snapshot-import submission:
bucket as given, key the derived logical image name, format the effective
format, token the ClientToken of that key. -/
lemma upload_ami_importSubmissions (env : AwsEnv) (st : AwsState) (info : ImageInfo)
    (bucket : String) (copy : Bool) (np rid : String) (pub : Bool) :
    (upload_ami env st info bucket copy np rid pub).1.importSubmissions =
      { token := import_snapshot_client_token bucket (upload_ami_image_name info np rid)
          (effective_format info.format)
        bucket := bucket
        key := upload_ami_image_name info np rid
        format := effective_format info.format } :: st.importSubmissions := by
  simp only [upload_ami]
  obtain ⟨sid, st', himp, hec2, hs3, hsub⟩ := import_snapshot_spec
    { st with s3 := (upload_to_s3_if_not_exists st.s3 env.fs bucket
        (upload_ami_image_name info np rid) info.file).1 }
    bucket (upload_ami_image_name info np rid) (effective_format info.format)
  rw [himp]
  dsimp only
  simp only at hsub
  rcases hreg : register_image_if_not_exists st'.ec2 (upload_ami_image_name info np rid)
      info sid pub with ⟨ec2a, r2⟩
  cases r2 with
  | error e => simpa using hsub
  | ok image_id =>
    cases copy with
    | false => simpa using hsub
    | true =>
      rcases hc : copy_image_to_regions env.copyBehavior image_id
          (upload_ami_image_name info np rid) env.sourceRegion
          (env.regions.filter (fun r => r != env.sourceRegion)) pub with e | m <;>
        first
        | (rw [hc]; simpa using hsub)
        | simpa using hsub
        | (simp only [hc]; simpa using hsub)

/-- C4: the snapshot-import ClientToken is a function of the storage key
alone — it is invariant under the bucket and the format arguments in scope
at its computation, recomputation yields a byte-identical token, and at the
pipeline level two runs that differ in the descriptor's `file` field and in
the entire environment (filesystem contents included) record identical
submission tokens. -/
theorem C4_client_token_key_only (b b' fm fm' k : String) (env env' : AwsEnv)
    (st : AwsState) (info : ImageInfo) (f bucket np rid : String) (copy pub : Bool) :
    import_snapshot_client_token b k fm = import_snapshot_client_token b' k fm' ∧
    import_snapshot_client_token b k fm = import_snapshot_client_token b k fm ∧
    ((upload_ami env' st { info with file := f } bucket copy np rid pub).1.importSubmissions.map
        (fun sub => sub.token)) =
      ((upload_ami env st info bucket copy np rid pub).1.importSubmissions.map
        (fun sub => sub.token)) := by
  refine ⟨rfl, rfl, ?_⟩
  rw [upload_ami_importSubmissions, upload_ami_importSubmissions]
  simp [upload_ami_image_name, effective_format]

/-- C10: when the descriptor's `format` is absent or the empty string,
`image_info.get("format") or "VHD"` falls back to `"VHD"`, and the
snapshot-import submission of the run carries format `"VHD"`. -/
theorem C10_format_default (env : AwsEnv) (st : AwsState) (info : ImageInfo)
    (bucket : String) (copy : Bool) (np rid : String) (pub : Bool)
    (h : info.format = none ∨ info.format = some "") :
    ∃ sub, (upload_ami env st info bucket copy np rid pub).1.importSubmissions =
      sub :: st.importSubmissions ∧ sub.format = "VHD" := by
  refine ⟨_, upload_ami_importSubmissions env st info bucket copy np rid pub, ?_⟩
  rcases h with h | h <;> simp [effective_format, h]

end UploadAmi

namespace UploadAmi

/-- Environment of the end-to-end scenario: the local disk image reads as
`"IMG"`, two provider regions, default region `us-east-1`. -/
def awsEnvScenario : AwsEnv :=
  { fs := fun _ => "IMG"
    regions := ["us-east-1", "eu-west-1"]
    sourceRegion := "us-east-1"
    copyBehavior := fun _ => ⟨.ok "ami-copy", .ok (), .ok ()⟩ }

/-- Fresh remote state: nothing uploaded, imported or registered yet. -/
def awsState0 : AwsState := ⟨⟨[]⟩, ⟨[], [], 0⟩, [], 0, []⟩

/-- C3: the end-to-end scenario — descriptor
`{file: "disk.img", label: "nixos", system: "x86_64-linux", boot_mode:
"uefi", format: "VHD"}`, bucket `"b"`, empty prefix, run id `"42"`, no
replication, not public — derives the key and image name
`nixos-x86_64-linux.42`, stores the file under that key, registers exactly
one image with that exact name, and returns the single-entry map from the
source region to that image's id. -/
theorem C3_end_to_end_scenario :
    upload_ami_image_name imageInfoNixos "" "42" = "nixos-x86_64-linux.42" ∧
    (upload_ami awsEnvScenario awsState0 imageInfoNixos "b" false "" "42" false).2 =
      .ok [("us-east-1", "ami-0")] ∧
    ((upload_ami awsEnvScenario awsState0 imageInfoNixos "b" false "" "42"
        false).1.ec2.images.filter
      (fun i => i.name == "nixos-x86_64-linux.42")).map (fun i => i.imageId) = ["ami-0"] ∧
    ((upload_ami awsEnvScenario awsState0 imageInfoNixos "b" false "" "42"
        false).1.ec2.images.length = 1) ∧
    s3lookup (upload_ami awsEnvScenario awsState0 imageInfoNixos "b" false "" "42"
        false).1.s3 "b" "nixos-x86_64-linux.42" = some "IMG" :=
  ⟨rfl, rfl, rfl, rfl, rfl⟩

end UploadAmi

namespace UploadAmi

/-- Scenario descriptor with no `format` field. -/
def imageInfoNoFormat : ImageInfo :=
  { file := "disk.img", label := "nixos", system := "x86_64-linux",
    boot_mode := "uefi", format := none }

/-- C10, witnessed: a run whose descriptor lacks the format field submits
the import with format `"VHD"`. -/
theorem C10_format_default_witness :
    ∃ sub, (upload_ami awsEnvScenario awsState0 imageInfoNoFormat "b" false "" "42"
        false).1.importSubmissions = sub :: awsState0.importSubmissions ∧
      sub.format = "VHD" :=
  C10_format_default awsEnvScenario awsState0 imageInfoNoFormat "b" false "" "42" false
    (Or.inl rfl)

end UploadAmi

namespace UploadAmi

/-! ## Replication-stage lemmas -/

/-- When a region's copy, wait and (if requested) grant all succeed, the
worker returns the `(region, copied id)` pair. -/
lemma copy_image_ok (env : String → RegionBehavior) (image_id image_name source : String)
    (public : Bool) (t c : String)
    (hc : (env t).copyImageId = .ok c) (hw : (env t).waitAvailable = .ok ())
    (hm : (env t).modifyPublic = .ok ()) :
    copy_image env image_id image_name source public t = .ok (t, c) := by
  cases public <;> simp [copy_image, hc, hw, hm]

/-- When every target's worker succeeds, the fan-out returns the pairs in
target order. -/
lemma copy_images_all_ok (env : String → RegionBehavior)
    (image_id image_name source : String) (public : Bool) (cid : String → String) :
    ∀ targets : List String,
      (∀ t ∈ targets, copy_image env image_id image_name source public t = .ok (t, cid t)) →
      copy_images env image_id image_name source public targets =
        .ok (targets.map (fun t => (t, cid t)))
  | [], _ => rfl
  | t :: ts, h => by
    have h1 := h t (by simp)
    have h2 := copy_images_all_ok env image_id image_name source public cid ts
      (fun x hx => h x (by simp [hx]))
    simp [copy_images, h1, h2]

/-- Inserting a fresh key appends it. -/
lemma dinsert_not_mem (m : List (String × String)) (k v : String)
    (h : ∀ p ∈ m, p.1 ≠ k) : dinsert m k v = m ++ [(k, v)] := by
  have ha : m.any (fun p => p.1 == k) = false := by
    rw [List.any_eq_false]
    intro p hp
    simpa using h p hp
  simp [dinsert, ha]

/-- Folding fresh-keyed pairs into a dict is concatenation. -/
lemma dofList_aux (ps : List (String × String)) :
    ∀ acc : List (String × String),
      (((acc ++ ps).map Prod.fst).Nodup) →
      ps.foldl (fun m p => dinsert m p.1 p.2) acc = acc ++ ps := by
  induction ps with
  | nil => intro acc _; simp
  | cons p ps ih =>
    intro acc hnd
    have hfresh : ∀ q ∈ acc, q.1 ≠ p.1 := by
      intro q hq
      have : p.1 ∉ acc.map Prod.fst := by
        simp only [List.map_append, List.nodup_append] at hnd
        intro hmem
        exact hnd.2.2 hmem (by simp)
      intro hqe
      exact this (by simpa [← hqe] using List.mem_map_of_mem Prod.fst hq)
    have hstep : dinsert acc p.1 p.2 = acc ++ [p] := by
      simpa using dinsert_not_mem acc p.1 p.2 hfresh
    have hrec := ih (acc ++ [p]) (by simpa using hnd)
    simp only [List.foldl_cons, hstep, hrec]
    simp

/-- Building a dict from nodup-keyed pairs returns the pairs unchanged. -/
lemma dofList_nodup (ps : List (String × String)) (h : (ps.map Prod.fst).Nodup) :
    dofList ps = ps := by
  simpa using dofList_aux ps [] (by simpa using h)

/-- Looking a key up past entries that do not carry it. -/
lemma dlookup_append_singleton (xs : List (String × String)) (k v : String)
    (h : ∀ p ∈ xs, p.1 ≠ k) : dlookup (xs ++ [(k, v)]) k = some v := by
  induction xs with
  | nil => simp [dlookup]
  | cons p ps ih =>
    have hne : (p.1 == k) = false := by simpa using h p (by simp)
    simp only [dlookup, List.cons_append, List.find?, hne]
    exact ih (fun q hq => h q (by simp [hq]))

/-- Looking a target key up in the mapped pair list. -/
lemma dlookup_map_mem (cid : String → String) (rest : List (String × String)) :
    ∀ targets : List String, targets.Nodup → ∀ t ∈ targets,
      dlookup (targets.map (fun x => (x, cid x)) ++ rest) t = some (cid t) := by
  intro targets
  induction targets with
  | nil => intro _ t ht; simp at ht
  | cons a ts ih =>
    intro hnd t ht
    rcases List.mem_cons.mp ht with rfl | ht'
    · simp [dlookup, List.find?]
    · have hne : (a == t) = false := by
        have : a ∉ ts := (List.nodup_cons.mp hnd).1
        simp only [beq_eq_false_iff_ne, ne_eq]
        intro h
        exact this (h ▸ ht')
      simp only [dlookup, List.map_cons, List.cons_append, List.find?, hne]
      exact ih (List.nodup_cons.mp hnd).2 t ht'

/-- A successful worker result implies its wait reached "available". -/
lemma copy_image_ok_wait (env : String → RegionBehavior)
    (image_id image_name source : String) (public : Bool) (t : String)
    (p : String × String)
    (h : copy_image env image_id image_name source public t = .ok p) :
    (env t).waitAvailable = .ok () := by
  unfold copy_image at h
  cases hc : (env t).copyImageId <;> rw [hc] at h
  · simp at h
  · cases hw : (env t).waitAvailable
    · simp [hw] at h
    · rename_i u
      cases u
      exact hw ▸ rfl

/-- A successful fan-out implies every target's wait reached "available". -/
lemma copy_images_ok_waits (env : String → RegionBehavior)
    (image_id image_name source : String) (public : Bool) :
    ∀ (targets : List String) (ps : List (String × String)),
      copy_images env image_id image_name source public targets = .ok ps →
      ∀ t ∈ targets, (env t).waitAvailable = .ok () := by
  intro targets
  induction targets with
  | nil => intro ps _ t ht; simp at ht
  | cons a ts ih =>
    intro ps hps t ht
    unfold copy_images at hps
    cases hca : copy_image env image_id image_name source public a <;> rw [hca] at hps
    · simp at hps
    · cases hcs : copy_images env image_id image_name source public ts <;> rw [hcs] at hps
      · simp at hps
      · rcases List.mem_cons.mp ht with rfl | ht'
        · exact copy_image_ok_wait env image_id image_name source public t _ hca
        · exact ih _ hcs t ht'

end UploadAmi

namespace UploadAmi

/-- Keys of the mapped pair list are the targets themselves. -/
lemma map_fst_pair (cid : String → String) :
    ∀ l : List String, ((l.map (fun t => (t, cid t))).map Prod.fst) = l
  | [] => rfl
  | a :: ts => by
    simp only [List.map_cons]
    rw [map_fst_pair cid ts]

/-- C7: when the source region is not among the targets, the target list has
no duplicates, and every target's copy / wait / grant succeeds, the
replication result is a map with exactly `targets.length + 1` entries — the
source entry carrying the original image id and each target entry carrying
that region's copied id; moreover (for any environment) a successful result
is only produced once every target's availability wait has succeeded. -/
theorem C7_replication_completeness (env : String → RegionBehavior)
    (image_id image_name source : String) (targets : List String)
    (cid : String → String) (public : Bool)
    (hnodup : targets.Nodup) (hsrc : source ∉ targets)
    (hok : ∀ t ∈ targets, (env t).copyImageId = .ok (cid t) ∧
      (env t).waitAvailable = .ok () ∧ (env t).modifyPublic = .ok ()) :
    ∃ m, copy_image_to_regions env image_id image_name source targets public = .ok m ∧
      m.length = targets.length + 1 ∧
      dlookup m source = some image_id ∧
      (∀ t ∈ targets, dlookup m t = some (cid t)) ∧
      (∀ (envA : String → RegionBehavior) (mA : List (String × String)),
        copy_image_to_regions envA image_id image_name source targets public = .ok mA →
        ∀ t ∈ targets, (envA t).waitAvailable = .ok ()) := by
  have hall : ∀ t ∈ targets,
      copy_image env image_id image_name source public t = .ok (t, cid t) := by
    intro t ht
    obtain ⟨h1, h2, h3⟩ := hok t ht
    exact copy_image_ok env image_id image_name source public t (cid t) h1 h2 h3
  have hcs := copy_images_all_ok env image_id image_name source public cid targets hall
  have hkeys : ((targets.map (fun t => (t, cid t))).map Prod.fst) = targets :=
    map_fst_pair cid targets
  have hdof : dofList (targets.map (fun t => (t, cid t))) =
      targets.map (fun t => (t, cid t)) :=
    dofList_nodup _ (by rw [hkeys]; exact hnodup)
  have hfresh : ∀ p ∈ targets.map (fun t => (t, cid t)), p.1 ≠ source := by
    intro p hp
    rcases List.mem_map.mp hp with ⟨t, ht, rfl⟩
    intro he
    exact hsrc (he ▸ ht)
  have hdin : dinsert (targets.map (fun t => (t, cid t))) source image_id =
      targets.map (fun t => (t, cid t)) ++ [(source, image_id)] :=
    dinsert_not_mem _ source image_id hfresh
  refine ⟨targets.map (fun t => (t, cid t)) ++ [(source, image_id)], ?_, ?_, ?_, ?_, ?_⟩
  · simp [copy_image_to_regions, hcs, hdof, hdin]
  · simp
  · exact dlookup_append_singleton _ source image_id hfresh
  · intro t ht
    exact dlookup_map_mem cid [(source, image_id)] targets hnodup t ht
  · intro envA mA hmA t ht
    unfold copy_image_to_regions at hmA
    cases hcc : copy_images envA image_id image_name source public targets <;>
      rw [hcc] at hmA
    · simp at hmA
    · exact copy_images_ok_waits envA image_id image_name source public targets _ hcc t ht

/-- Environment in which every region's copy succeeds. -/
def regionEnvOk : String → RegionBehavior := fun t =>
  if t == "ap-south-1" then ⟨.ok "ami-a", .ok (), .ok ()⟩
  else ⟨.ok "ami-b", .ok (), .ok ()⟩

/-- C7, witnessed concretely on targets `ap-south-1`, `eu-west-1` with
source `us-east-1`. -/
theorem C7_replication_completeness_witness :
    ∃ m, copy_image_to_regions regionEnvOk "ami-0" "nixos" "us-east-1"
        ["ap-south-1", "eu-west-1"] false = .ok m ∧
      m.length = (["ap-south-1", "eu-west-1"] : List String).length + 1 ∧
      dlookup m "us-east-1" = some "ami-0" ∧
      (∀ t ∈ (["ap-south-1", "eu-west-1"] : List String), dlookup m t =
        some (if t == "ap-south-1" then "ami-a" else "ami-b")) ∧
      (∀ (envA : String → RegionBehavior) (mA : List (String × String)),
        copy_image_to_regions envA "ami-0" "nixos" "us-east-1"
          ["ap-south-1", "eu-west-1"] false = .ok mA →
        ∀ t ∈ (["ap-south-1", "eu-west-1"] : List String),
          (envA t).waitAvailable = .ok ()) :=
  C7_replication_completeness regionEnvOk "ami-0" "nixos" "us-east-1"
    ["ap-south-1", "eu-west-1"] (fun t => if t == "ap-south-1" then "ami-a" else "ami-b")
    false (by decide) (by decide)
    (by intro t ht; fin_cases ht <;> exact ⟨rfl, rfl, rfl⟩)

/-- Whether a worker outcome is a raised exception. -/
def isErrorE : Except String (String × String) → Bool
  | .error _ => true
  | .ok _ => false

/-- The set of target regions whose copy operation fails under `env`. -/
def failing_regions (env : String → RegionBehavior)
    (image_id image_name source : String) (public : Bool)
    (targets : List String) : List String :=
  targets.filter (fun t => isErrorE (copy_image env image_id image_name source public t))

/-- Environment in which only region B's copy fails. -/
def envFailB : String → RegionBehavior := fun t =>
  if t == "B" then ⟨.error "boom", .ok (), .ok ()⟩ else ⟨.ok "ami-c", .ok (), .ok ()⟩

/-- Environment in which regions B and C both fail. -/
def envFailBC : String → RegionBehavior := fun t =>
  if t == "B" then ⟨.error "boom", .ok (), .ok ()⟩
  else if t == "C" then ⟨.error "crash", .ok (), .ok ()⟩
  else ⟨.ok "ami-c", .ok (), .ok ()⟩

/-- C8 (counterexample): the claim says the reported failure identifies
which region(s) failed, but two runs over targets `[A, B, C]` — one where
only B fails and one where B and C both fail — produce the very same
report `error "boom"`: the report cannot determine the failing set, and
C's failure is never surfaced. -/
theorem C8_counterexample :
    failing_regions envFailB "i" "n" "S" false ["A", "B", "C"] = ["B"] ∧
    failing_regions envFailBC "i" "n" "S" false ["A", "B", "C"] = ["B", "C"] ∧
    copy_image_to_regions envFailB "i" "n" "S" ["A", "B", "C"] false = .error "boom" ∧
    copy_image_to_regions envFailBC "i" "n" "S" ["A", "B", "C"] false = .error "boom" :=
  ⟨rfl, rfl, rfl, rfl⟩

/-- C8 (amended): if any target region's copy fails, the stage raises
instead of returning any map at all, and the raised error is the error of
the first failing region in target order (later regions' failures are not
included in the report). -/
theorem C8_amended (env : String → RegionBehavior)
    (image_id image_name source : String) (targets : List String) (public : Bool)
    (h : ∃ t ∈ targets,
      isErrorE (copy_image env image_id image_name source public t) = true) :
    ∃ t e,
      targets.find?
        (fun t => isErrorE (copy_image env image_id image_name source public t)) =
          some t ∧
      copy_image env image_id image_name source public t = .error e ∧
      copy_image_to_regions env image_id image_name source targets public = .error e ∧
      ∀ m, copy_image_to_regions env image_id image_name source targets public ≠
        .ok m := by
  induction targets with
  | nil => simp at h
  | cons t ts ih =>
    cases hc : copy_image env image_id image_name source public t with
    | error e =>
      refine ⟨t, e, ?_, hc, ?_, ?_⟩
      · simp [List.find?, hc, isErrorE]
      · simp [copy_image_to_regions, copy_images, hc]
      · intro m
        simp [copy_image_to_regions, copy_images, hc]
    | ok p =>
      have hh : ∃ x ∈ ts,
          isErrorE (copy_image env image_id image_name source public x) = true := by
        rcases h with ⟨x, hx, hxe⟩
        rcases List.mem_cons.mp hx with rfl | hx'
        · rw [hc] at hxe
          simp [isErrorE] at hxe
        · exact ⟨x, hx', hxe⟩
      obtain ⟨x, e, hfind, herr, htot, _⟩ := ih hh
      have hcs : copy_images env image_id image_name source public ts = .error e := by
        unfold copy_image_to_regions at htot
        cases hcc : copy_images env image_id image_name source public ts <;>
          rw [hcc] at htot
        · simpa using htot
        · simp at htot
      have hef : isErrorE (copy_image env image_id image_name source public t) = false := by
        rw [hc]
        rfl
      refine ⟨x, e, ?_, herr, ?_, ?_⟩
      · simp [List.find?, hef, hfind]
      · simp [copy_image_to_regions, copy_images, hc, hcs]
      · intro m
        simp [copy_image_to_regions, copy_images, hc, hcs]

/-- C8 amended, witnessed: with only region B failing among `[A, B, C]`,
the stage raises B's error `boom` and returns no map. -/
theorem C8_amended_witness :
    ∃ t e,
      (["A", "B", "C"] : List String).find?
        (fun t => isErrorE (copy_image envFailB "i" "n" "S" false t)) = some t ∧
      copy_image envFailB "i" "n" "S" false t = .error e ∧
      copy_image_to_regions envFailB "i" "n" "S" ["A", "B", "C"] false = .error e ∧
      ∀ m, copy_image_to_regions envFailB "i" "n" "S" ["A", "B", "C"] false ≠ .ok m :=
  C8_amended envFailB "i" "n" "S" ["A", "B", "C"] false ⟨"B", by simp, rfl⟩

end UploadAmi
